import Mathlib

/-!
Shallow embedding of `src/emu/xtal.cpp` (MAME's crystal-frequency validator).

The source file defines a sorted constant array `XTAL::known_xtals` of known
crystal frequencies, three pieces of process-wide mutable state
(`last_correct_value`, `xtal_error_low`, `xtal_error_high`), and the routine
`bool XTAL::validate(double base_clock)` which

  * returns `true` immediately when `base_clock == last_correct_value`;
  * otherwise runs a power-of-two-stepping binary search over the table,
    comparing with the relative tolerance
    `std::abs((base_clock - sfreq) / base_clock) <= 2 * DBL_EPSILON`;
  * on a mismatch records the two bracketing table entries (or `0` as the
    "none" sentinel) in `xtal_error_low` / `xtal_error_high` and returns
    `false`.

Doubles are modelled as exact rationals (`ℚ`); every table entry and every
quantity the algorithm manipulates on the paths the claims are about is an
exact small rational, so no rounding behaviour is lost on those paths.  Note
that in `ℚ` division by zero yields `0`; the claims below only concern
candidates where the divisor `base_clock` is nonzero, except for the cache
fast path, which performs no division at all.  The mutable globals are
modelled by explicit state passing (`State`); array indexing `known_xtals[i]`
is modelled by `List.getD` with default `0`, and the theorem for claim C5
shows the algorithm only ever uses in-bounds slots.  The `while(step)` loop
is modelled with a fuel argument that starts at `step`: the loop body halves
`step` on every iteration, so `step` many iterations always suffice, and when
fuel reaches `0` the invariant `step ≤ fuel` forces `step = 0`, which is
exactly the loop's exit condition; hence the fuelled recursion computes
precisely what the `while` loop computes.
-/

namespace XTAL

/-- `DBL_EPSILON` from `<cfloat>` for IEEE-754 binary64: `2⁻⁵²`. -/
def DBL_EPSILON : ℚ := 1 / 2 ^ 52

/-- The tolerance test done inside the search loop of `XTAL::validate`:
`std::abs((base_clock - sfreq) / base_clock) <= 2 * DBL_EPSILON`. -/
def tol (base_clock sfreq : ℚ) : Prop :=
  |(base_clock - sfreq) / base_clock| ≤ 2 * DBL_EPSILON

instance (a b : ℚ) : Decidable (tol a b) :=
  inferInstanceAs (Decidable (|(a - b) / a| ≤ 2 * DBL_EPSILON))

/-- The compiled-in reference table `XTAL::known_xtals` (316 entries,
transcribed from `xtal.cpp` lines 60–375, with C++ digit separators
removed). -/
def known_xtals : List ℚ := [
  32768, 38400, 384000, 400000, 430000, 455000, 512000, 600000,
  640000, 960000, 1000000, 1008000, 1056000, 1294400, 1689600, 1750000,
  1797100, 1843200, 2000000, 2012160, 2097152, 2457600, 2500000, 2950000,
  3000000, 3072000, 3120000, 3521280, 3570000, 3578640, 3579545, 3686400,
  3840000, 3900000, 4000000, 4028000, 4032000, 4096000, 4194304, 4224000,
  4410000, 4433610, 4433619, 4608000, 4915200, 5000000, 5068800, 5185000,
  5460000, 5529600, 5626000, 5670000, 5714300, 5911000, 5990400, 6000000,
  6144000, 6400000, 6500000, 6880000, 6900000, 7000000, 7159090, 7372800,
  7864300, 7987000, 8000000, 8200000, 8388000, 8448000, 8467200, 8664000,
  8700000, 8867236, 8867238, 8945000, 9216000, 9828000, 9830400, 9832000,
  9877680, 9987000, 10000000, 10137600, 10245000, 10380000, 10500000, 10595000,
  10644500, 10687500, 10694250, 10717200, 10730000, 10733000, 10738635, 10816000,
  10920000, 11000000, 11059200, 11200000, 11289000, 11400000, 11668800, 11800000,
  11980800, 12000000, 12057600, 12096000, 12288000, 12324000, 12432000, 12472500,
  12480000, 12500000, 12672000, 12800000, 12854400, 12936000, 12979200, 13300000,
  13330560, 13333000, 13400000, 13478400, 13495200, 13516800, 13608000, 13824000,
  14000000, 14112000, 14192640, 14218000, 14300000, 14314000, 14318181, 14705882,
  14745600, 14784000, 14916000, 14976000, 15000000, 15148800, 15288000, 15300720,
  15360000, 15400000, 15468480, 15582000, 15700000, 15897600, 15920000, 15974400,
  16000000, 16097280, 16128000, 16384000, 16400000, 16572000, 16588800, 16669800,
  16670000, 16777216, 16934400, 17064000, 17360000, 17550000, 17600000, 17734470,
  17734472, 17971200, 18000000, 18432000, 18480000, 18575000, 18720000, 18869600,
  19339600, 19600000, 19602000, 19660800, 19661400, 19923000, 19968000, 20000000,
  20160000, 20275200, 20625000, 20790000, 21000000, 21052600, 21060000, 21254400,
  21281370, 21300000, 21477272, 22000000, 22032000, 22096000, 22118400, 22321000,
  22464000, 22656000, 22896000, 23814000, 23961600, 24000000, 24073400, 24576000,
  24883200, 25000000, 25174800, 25200000, 25398360, 25400000, 25447000, 25590906,
  25593900, 25771500, 25920000, 26000000, 26366000, 26580000, 26601712, 26666000,
  26666666, 26686000, 26989200, 27000000, 27164000, 27210900, 27562000, 28000000,
  28322000, 28375160, 28475000, 28480000, 28636363, 28640000, 28700000, 29376000,
  29491200, 30000000, 30476100, 30800000, 31279500, 31684000, 31948800, 32000000,
  32147000, 32220000, 32317400, 32530400, 33000000, 33264000, 33333000, 33833000,
  33868800, 34000000, 34291712, 34846000, 35904000, 36000000, 37980000, 38769220,
  38863630, 39321600, 39710000, 40000000, 40210000, 42000000, 42105200, 42954545,
  43320000, 44100000, 44452800, 45000000, 45158000, 45619200, 45830400, 46615120,
  47736000, 48000000, 48384000, 48556800, 48654000, 48660000, 49152000, 49423500,
  50000000, 50113000, 50349000, 51200000, 52000000, 52832000, 53203400, 53693175,
  54000000, 55000000, 57272727, 58000000, 59292000, 60000000, 61440000, 64000000,
  66666700, 67737600, 68850000, 69551990, 72000000, 72576000, 73728000, 80000000,
  87183360, 100000000, 101491200, 200000000
]

/-- The three static mutable members of `XTAL` (xtal.cpp lines 378–380),
modelled as an explicit state record. -/
structure State where
  last_correct_value : ℚ
  xtal_error_low : ℚ
  xtal_error_high : ℚ
deriving DecidableEq

/-- The initial values of the statics:
`last_correct_value = -1`, `xtal_error_low = 0`, `xtal_error_high = 0`. -/
def initState : State :=
  { last_correct_value := -1, xtal_error_low := 0, xtal_error_high := 0 }

/-- `xtal_count - 1` computed from the table, as in `XTAL::validate`. -/
def last_indexT (table : List ℚ) : Nat := table.length - 1

/-- `fill1 = last_index | (last_index >> 1)`. -/
def fill1T (table : List ℚ) : Nat := last_indexT table ||| (last_indexT table >>> 1)

/-- `fill2 = fill1 | (fill1 >> 2)`. -/
def fill2T (table : List ℚ) : Nat := fill1T table ||| (fill1T table >>> 2)

/-- `fill4 = fill2 | (fill2 >> 4)`. -/
def fill4T (table : List ℚ) : Nat := fill2T table ||| (fill2T table >>> 4)

/-- `fill8 = fill4 | (fill4 >> 8)`. -/
def fill8T (table : List ℚ) : Nat := fill4T table ||| (fill4T table >>> 8)

/-- `fill16 = fill8 | (fill8 >> 16)`. -/
def fill16T (table : List ℚ) : Nat := fill8T table ||| (fill8T table >>> 16)

/-- `ppow2 = fill16 - (fill16 >> 1)`: the largest power of two ≤ `last_index`. -/
def ppow2T (table : List ℚ) : Nat := fill16T table - (fill16T table >>> 1)

/-- The `while(step)` loop of `XTAL::validate`.  `none` models the in-loop
`return true` on a tolerance match; `some slot` models falling out of the
loop with the final `slot`.  The first argument is fuel (see the header
comment: called with fuel = `step`, it computes exactly the `while` loop). -/
def searchLoop (table : List ℚ) (base_clock : ℚ) : Nat → Nat → Nat → Option Nat
  | 0, slot, _ => some slot
  | fuel + 1, slot, step =>
    if step = 0 then some slot
    else if slot > table.length - 1 then
      searchLoop table base_clock fuel (slot ^^^ (step ||| (step >>> 1))) (step >>> 1)
    else if tol base_clock (table.getD slot 0) then
      none
    else if base_clock > table.getD slot 0 then
      searchLoop table base_clock fuel (slot ||| (step >>> 1)) (step >>> 1)
    else
      searchLoop table base_clock fuel (slot ^^^ (step ||| (step >>> 1))) (step >>> 1)

/-- `bool XTAL::validate(double base_clock)` (xtal.cpp lines 382–434), with
the table as a parameter and the mutable statics passed as explicit state.
Returns the boolean result together with the updated state. -/
def validateT (table : List ℚ) (st : State) (base_clock : ℚ) : Bool × State :=
  if base_clock = st.last_correct_value then (true, st)
  else
    match searchLoop table base_clock (ppow2T table) (ppow2T table) (ppow2T table) with
    | none => (true, { st with last_correct_value := base_clock })
    | some slot =>
      if base_clock = table.getD slot 0 then
        (true, { st with last_correct_value := base_clock })
      else if base_clock < table.getD slot 0 then
        (false, { st with
                  xtal_error_low := if slot ≠ 0 then table.getD (slot - 1) 0 else 0,
                  xtal_error_high := table.getD slot 0 })
      else
        (false, { st with
                  xtal_error_low := table.getD slot 0,
                  xtal_error_high :=
                    if slot < last_indexT table then table.getD (slot + 1) 0 else 0 })

/-- `XTAL::validate(double)` on the compiled-in table. -/
def validate (st : State) (base_clock : ℚ) : Bool × State :=
  validateT known_xtals st base_clock

/-- Proof device: the search of `XTAL::validate` succeeds on `v`, either by an
in-loop tolerance match or by the post-loop exact re-check. -/
def hits (v : ℚ) : Bool :=
  match searchLoop known_xtals v (ppow2T known_xtals) (ppow2T known_xtals)
      (ppow2T known_xtals) with
  | none => true
  | some slot => decide (v = known_xtals.getD slot 0)

/-- Proof device: the slot computation of `searchLoop` with the data-dependent
comparisons abstracted into a direction oracle `d` (`d slot = true` means the
probe concluded `base_clock > table[slot]`) and with the tolerance match known
to never fire.  Used to analyse which final slot the search produces. -/
def searchLoopD (last : Nat) (d : Nat → Bool) : Nat → Nat → Nat → Nat
  | 0, slot, _ => slot
  | fuel + 1, slot, step =>
    if step = 0 then slot
    else if slot > last then
      searchLoopD last d fuel (slot ^^^ (step ||| (step >>> 1))) (step >>> 1)
    else if d slot then
      searchLoopD last d fuel (slot ||| (step >>> 1)) (step >>> 1)
    else
      searchLoopD last d fuel (slot ^^^ (step ||| (step >>> 1))) (step >>> 1)

/-- States reachable by the program: `last_correct_value` is either still the
initial `-1` (line 378) or some candidate that passed validation, i.e. one
within tolerance of a table entry. -/
def StateOK (st : State) : Prop :=
  st.last_correct_value = -1 ∨
    ∃ e ∈ known_xtals, tol st.last_correct_value e

end XTAL

set_option maxRecDepth 40000
set_option maxHeartbeats 4000000

attribute [local semireducible] Rat.sub Rat.add Rat.mul Rat.inv

/-! ### Ground facts established by computation -/

lemma known_xtals_length : XTAL.known_xtals.length = 316 := rfl

lemma ppow2_known : XTAL.ppow2T XTAL.known_xtals = 256 := by decide

lemma lastIndex_known : XTAL.last_indexT XTAL.known_xtals = 315 := by decide

lemma known_adj : ∀ i, i < 315 →
    XTAL.known_xtals.getD i 0 < XTAL.known_xtals.getD (i + 1) 0 := by decide

lemma known_pos : ∀ e ∈ XTAL.known_xtals, (0 : ℚ) < e := by decide

lemma two_eps_nonneg : (0 : ℚ) ≤ 2 * XTAL.DBL_EPSILON := by decide

/-! ### Indexing helpers -/

lemma getD_eq_getElem (table : List ℚ) (j : Nat) (hj : j < table.length) :
    table.getD j 0 = table[j] := by
  rw [List.getD_eq_getElem?_getD, List.getElem?_eq_getElem hj, Option.getD_some]

lemma getD_mem (table : List ℚ) (j : Nat) (hj : j < table.length) :
    table.getD j 0 ∈ table := by
  rw [getD_eq_getElem table j hj]
  exact List.getElem_mem hj

lemma known_mono : ∀ i j : Nat, i ≤ j → j ≤ 315 →
    XTAL.known_xtals.getD i 0 ≤ XTAL.known_xtals.getD j 0 := by
  intro i j
  induction j with
  | zero =>
    intro hij _
    have hz : i = 0 := by omega
    subst hz
    exact le_refl _
  | succ j ih =>
    intro hij hj
    rcases Nat.eq_or_lt_of_le hij with h | h
    · rw [h]
    · exact le_trans (ih (by omega) (by omega)) (le_of_lt (known_adj j (by omega)))

lemma known_strict_mono (i j : Nat) (hij : i < j) (hj : j ≤ 315) :
    XTAL.known_xtals.getD i 0 < XTAL.known_xtals.getD j 0 :=
  lt_of_lt_of_le (known_adj i (by omega)) (known_mono (i + 1) j hij hj)

/-! ### Tolerance monotonicity -/

lemma tol_self (v : ℚ) : XTAL.tol v v := by
  show |(v - v) / v| ≤ 2 * XTAL.DBL_EPSILON
  rw [sub_self, zero_div, abs_zero]
  exact two_eps_nonneg

lemma abs_ratio_of_lt (v a : ℚ) (hv : 0 < v) (hav : a < v) :
    |(v - a) / v| = (v - a) / v := by
  rw [abs_div, abs_of_pos hv, abs_of_nonneg (by linarith)]

lemma abs_ratio_of_gt (v a : ℚ) (hv : 0 < v) (hva : v < a) :
    |(v - a) / v| = (a - v) / v := by
  rw [abs_div, abs_of_pos hv, abs_sub_comm, abs_of_nonneg (by linarith)]

lemma not_tol_of_le (v a b : ℚ) (hv : 0 < v) (hba : b ≤ a) (hav : a < v)
    (h : ¬ XTAL.tol v a) : ¬ XTAL.tol v b := by
  intro hb
  apply h
  show |(v - a) / v| ≤ 2 * XTAL.DBL_EPSILON
  have hb' : |(v - b) / v| ≤ 2 * XTAL.DBL_EPSILON := hb
  rw [abs_ratio_of_lt v b hv (by linarith)] at hb'
  rw [abs_ratio_of_lt v a hv hav]
  refine le_trans ?_ hb'
  gcongr

lemma not_tol_of_ge (v a b : ℚ) (hv : 0 < v) (hab : a ≤ b) (hva : v < a)
    (h : ¬ XTAL.tol v a) : ¬ XTAL.tol v b := by
  intro hb
  apply h
  show |(v - a) / v| ≤ 2 * XTAL.DBL_EPSILON
  have hb' : |(v - b) / v| ≤ 2 * XTAL.DBL_EPSILON := hb
  rw [abs_ratio_of_gt v b hv (by linarith)] at hb'
  rw [abs_ratio_of_gt v a hv hva]
  refine le_trans ?_ hb'
  gcongr

/-! ### Loop lemmas -/

lemma searchLoop_zero_step (table : List ℚ) (v : ℚ) :
    ∀ fuel slot, XTAL.searchLoop table v fuel slot 0 = some slot := by
  intro fuel slot
  cases fuel with
  | zero => rfl
  | succ f => simp [XTAL.searchLoop]

lemma searchLoop_eq_searchLoopD (table : List ℚ) (v : ℚ) (d : Nat → Bool)
    (hnt : ∀ j, j ≤ table.length - 1 → ¬ XTAL.tol v (table.getD j 0))
    (hd : ∀ j, j ≤ table.length - 1 → (d j = true ↔ table.getD j 0 < v)) :
    ∀ fuel slot step,
      XTAL.searchLoop table v fuel slot step =
        some (XTAL.searchLoopD (table.length - 1) d fuel slot step) := by
  intro fuel
  induction fuel with
  | zero => intro slot step; rfl
  | succ f ih =>
    intro slot step
    by_cases h0 : step = 0
    · simp [XTAL.searchLoop, XTAL.searchLoopD, h0]
    · by_cases hg : slot > table.length - 1
      · simp only [XTAL.searchLoop, XTAL.searchLoopD, if_neg h0, if_pos hg]
        exact ih _ _
      · have hnt' := hnt slot (by omega)
        have hd' := hd slot (by omega)
        simp only [XTAL.searchLoop, XTAL.searchLoopD, if_neg h0, if_neg hg, if_neg hnt']
        by_cases hgt : table.getD slot 0 < v
        · rw [if_pos (show v > table.getD slot 0 from hgt), if_pos (hd'.mpr hgt)]
          exact ih _ _
        · rw [if_neg (show ¬ v > table.getD slot 0 from hgt),
            if_neg (fun hh => hgt (hd'.mp hh))]
          exact ih _ _

lemma searchLoop_none_tol (table : List ℚ) (v : ℚ) :
    ∀ fuel slot step,
      XTAL.searchLoop table v fuel slot step = none →
      ∃ j, j ≤ table.length - 1 ∧ XTAL.tol v (table.getD j 0) := by
  intro fuel
  induction fuel with
  | zero => intro slot step h; exact Option.noConfusion h
  | succ f ih =>
    intro slot step h
    by_cases h0 : step = 0
    · rw [XTAL.searchLoop, if_pos h0] at h
      exact Option.noConfusion h
    · by_cases hg : slot > table.length - 1
      · rw [XTAL.searchLoop, if_neg h0, if_pos hg] at h
        exact ih _ _ h
      · by_cases htol : XTAL.tol v (table.getD slot 0)
        · exact ⟨slot, by omega, htol⟩
        · by_cases hgt : v > table.getD slot 0
          · rw [XTAL.searchLoop, if_neg h0, if_neg hg, if_neg htol, if_pos hgt] at h
            exact ih _ _ h
          · rw [XTAL.searchLoop, if_neg h0, if_neg hg, if_neg htol, if_neg hgt] at h
            exact ih _ _ h

/-! ### Bit-stepping facts, established by computation over the finite range
the search can reach, and the resulting slot bound -/

lemma bit_step_facts : ∀ s, s < 1024 → ∀ k, k < 8 →
    (s % 2 ^ (k + 2) = 2 ^ (k + 1) →
      (s ^^^ (2 ^ (k + 1) ||| (2 ^ (k + 1) >>> 1)) = s - 2 ^ k ∧
        s ||| (2 ^ (k + 1) >>> 1) = s + 2 ^ k)) := by decide

lemma bit_one_facts : ∀ s, s < 1024 → s % 2 = 1 →
    (s ^^^ (1 ||| (1 >>> 1)) = s - 1 ∧ s ||| (1 >>> 1) = s) := by decide

lemma exists_quot (p s : Nat) (hmod : s % (4 * p) = 2 * p) :
    ∃ q, s = 4 * p * q + 2 * p := by
  refine ⟨s / (4 * p), ?_⟩
  conv_lhs => rw [← Nat.div_add_mod s (4 * p)]
  rw [hmod]

lemma mod4_sub (p s : Nat) (hp : 0 < p) (hmod : s % (4 * p) = 2 * p) :
    (s - p) % (2 * p) = p := by
  obtain ⟨q, hq⟩ := exists_quot p s hmod
  subst hq
  have hle : p ≤ 2 * p := by omega
  rw [Nat.add_sub_assoc hle]
  have h2 : 2 * p - p = p := by omega
  rw [h2]
  have h4 : 4 * p * q = 2 * p * (2 * q) := by ring
  rw [h4, Nat.mul_add_mod]
  exact Nat.mod_eq_of_lt (by omega)

lemma mod4_add (p s : Nat) (hp : 0 < p) (hmod : s % (4 * p) = 2 * p) :
    (s + p) % (2 * p) = p := by
  obtain ⟨q, hq⟩ := exists_quot p s hmod
  subst hq
  have h4 : 4 * p * q + 2 * p + p = 2 * p * (2 * q + 1) + p := by ring
  rw [h4, Nat.mul_add_mod]
  exact Nat.mod_eq_of_lt (by omega)

lemma two_pow_shiftRight (k : Nat) : (2 ^ (k + 1) : Nat) >>> 1 = 2 ^ k := by
  rw [Nat.shiftRight_eq_div_pow, pow_one, pow_succ]
  omega

lemma slot_le_315_aux (v : ℚ) :
    ∀ k, k ≤ 8 → ∀ fuel slot, 2 ^ k ≤ fuel → slot % 2 ^ (k + 1) = 2 ^ k →
      slot ≤ 315 + 2 ^ k →
      ∀ r, XTAL.searchLoop XTAL.known_xtals v fuel slot (2 ^ k) = some r → r ≤ 315 := by
  intro k
  induction k with
  | zero =>
    intro _ fuel slot hfuel hmod hle r hr
    obtain ⟨f, rfl⟩ : ∃ f, fuel = f + 1 := ⟨fuel - 1, by omega⟩
    simp only [pow_zero, pow_one] at hmod hle hr
    have hslot : slot ≤ 315 := by omega
    rw [XTAL.searchLoop, if_neg (by omega : ¬ (1 : Nat) = 0),
      if_neg (by rw [known_xtals_length]; omega :
        ¬ slot > XTAL.known_xtals.length - 1)] at hr
    by_cases htol : XTAL.tol v (XTAL.known_xtals.getD slot 0)
    · rw [if_pos htol] at hr
      exact Option.noConfusion hr
    · rw [if_neg htol] at hr
      have hb := bit_one_facts slot (by omega) (by omega)
      have h10 : (1 : Nat) >>> 1 = 0 := rfl
      by_cases hgt : v > XTAL.known_xtals.getD slot 0
      · rw [if_pos hgt, hb.2, h10, searchLoop_zero_step] at hr
        have hsr := Option.some.inj hr
        omega
      · rw [if_neg hgt, hb.1, h10, searchLoop_zero_step] at hr
        have hsr := Option.some.inj hr
        omega
  | succ k ih =>
    intro hk8 fuel slot hfuel hmod hle r hr
    have hppos : 0 < (2 : Nat) ^ k := Nat.pow_pos (by omega)
    have hp1pos : 0 < (2 : Nat) ^ (k + 1) := Nat.pow_pos (by omega)
    obtain ⟨f, rfl⟩ : ∃ f, fuel = f + 1 := ⟨fuel - 1, by omega⟩
    have hple : (2 : Nat) ^ (k + 1) ≤ 2 ^ 8 := Nat.pow_le_pow_right (by omega) (by omega)
    have h256 : (2 : Nat) ^ 8 = 256 := by norm_num
    have hs2 : (2 : Nat) ^ (k + 1) = 2 * 2 ^ k := by rw [pow_succ]; ring
    have hs4 : (2 : Nat) ^ (k + 2) = 4 * 2 ^ k := by rw [pow_succ, pow_succ]; ring
    have hbit := bit_step_facts slot (by omega) k (by omega) hmod
    have hmod4 : slot % (4 * 2 ^ k) = 2 * 2 ^ k := by rw [← hs4, ← hs2]; exact hmod
    have hfuel' : 2 ^ k ≤ f := by rw [hs2] at hfuel; omega
    rw [XTAL.searchLoop, if_neg (by omega : ¬ (2 : Nat) ^ (k + 1) = 0)] at hr
    by_cases hg : slot > XTAL.known_xtals.length - 1
    · rw [if_pos hg, hbit.1, two_pow_shiftRight] at hr
      refine ih (by omega) f (slot - 2 ^ k) hfuel' ?_ ?_ r hr
      · rw [hs2]
        exact mod4_sub _ _ hppos hmod4
      · rw [hs2] at hle
        omega
    · rw [if_neg hg] at hr
      have hgs : slot ≤ 315 := by rw [known_xtals_length] at hg; omega
      by_cases htol : XTAL.tol v (XTAL.known_xtals.getD slot 0)
      · rw [if_pos htol] at hr
        exact Option.noConfusion hr
      · rw [if_neg htol] at hr
        by_cases hgt : v > XTAL.known_xtals.getD slot 0
        · rw [if_pos hgt, hbit.2, two_pow_shiftRight] at hr
          refine ih (by omega) f (slot + 2 ^ k) hfuel' ?_ ?_ r hr
          · rw [hs2]
            exact mod4_add _ _ hppos hmod4
          · omega
        · rw [if_neg hgt, hbit.1, two_pow_shiftRight] at hr
          refine ih (by omega) f (slot - 2 ^ k) hfuel' ?_ ?_ r hr
          · rw [hs2]
            exact mod4_sub _ _ hppos hmod4
          · omega

lemma slot_le_315 (v : ℚ) (r : Nat)
    (h : XTAL.searchLoop XTAL.known_xtals v (XTAL.ppow2T XTAL.known_xtals)
      (XTAL.ppow2T XTAL.known_xtals) (XTAL.ppow2T XTAL.known_xtals) = some r) :
    r ≤ 315 := by
  rw [ppow2_known, (by norm_num : (256 : Nat) = 2 ^ 8)] at h
  exact slot_le_315_aux v 8 (le_refl 8) (2 ^ 8) (2 ^ 8) (le_refl _)
    (by norm_num) (by norm_num) r h

/-! ### Unfolding `validate` -/

lemma validate_fastpath (st : XTAL.State) (v : ℚ) (h : v = st.last_correct_value) :
    XTAL.validate st v = (true, st) := by
  unfold XTAL.validate XTAL.validateT
  rw [if_pos h]

lemma validate_eq_of_none (st : XTAL.State) (v : ℚ)
    (hne : ¬ v = st.last_correct_value)
    (hsl : XTAL.searchLoop XTAL.known_xtals v (XTAL.ppow2T XTAL.known_xtals)
      (XTAL.ppow2T XTAL.known_xtals) (XTAL.ppow2T XTAL.known_xtals) = none) :
    XTAL.validate st v = (true, { st with last_correct_value := v }) := by
  unfold XTAL.validate XTAL.validateT
  rw [if_neg hne, hsl]

lemma validate_eq_of_some (st : XTAL.State) (v : ℚ) (r : Nat)
    (hne : ¬ v = st.last_correct_value)
    (hsl : XTAL.searchLoop XTAL.known_xtals v (XTAL.ppow2T XTAL.known_xtals)
      (XTAL.ppow2T XTAL.known_xtals) (XTAL.ppow2T XTAL.known_xtals) = some r) :
    XTAL.validate st v =
      (if v = XTAL.known_xtals.getD r 0 then
        (true, { st with last_correct_value := v })
      else if v < XTAL.known_xtals.getD r 0 then
        (false, { st with
                  xtal_error_low := if r ≠ 0 then XTAL.known_xtals.getD (r - 1) 0 else 0,
                  xtal_error_high := XTAL.known_xtals.getD r 0 })
      else
        (false, { st with
                  xtal_error_low := XTAL.known_xtals.getD r 0,
                  xtal_error_high :=
                    if r < XTAL.last_indexT XTAL.known_xtals then
                      XTAL.known_xtals.getD (r + 1) 0
                    else 0 })) := by
  unfold XTAL.validate XTAL.validateT
  rw [if_neg hne, hsl]

/-! ### The search succeeds on every table entry (by computation) -/

lemma hits_all : XTAL.known_xtals.all (fun v => XTAL.hits v) = true := by decide

/-! ### Decided runs of the direction-oracle search -/

lemma runD_between : ∀ i, i < 315 →
    (XTAL.searchLoopD 315 (fun j => decide (j ≤ i)) 256 256 256 = i ∨
      XTAL.searchLoopD 315 (fun j => decide (j ≤ i)) 256 256 256 = i + 1) := by decide

lemma runD_below : XTAL.searchLoopD 315 (fun _ => false) 256 256 256 = 0 := by decide

lemma runD_above : XTAL.searchLoopD 315 (fun _ => true) 256 256 256 = 315 := by decide

/-! ### Reachable states -/

lemma initState_ok : XTAL.StateOK XTAL.initState := Or.inl rfl

lemma mem_getD_index (e : ℚ) (he : e ∈ XTAL.known_xtals) :
    ∃ j, j ≤ 315 ∧ XTAL.known_xtals.getD j 0 = e := by
  obtain ⟨j, hj, hget⟩ := List.mem_iff_getElem.mp he
  refine ⟨j, by rw [known_xtals_length] at hj; omega, ?_⟩
  rw [getD_eq_getElem _ _ hj, hget]

lemma ne_last_of_not_tol_all (st : XTAL.State) (v : ℚ) (hok : XTAL.StateOK st)
    (hv : 0 < v) (hnt : ∀ j, j ≤ 315 → ¬ XTAL.tol v (XTAL.known_xtals.getD j 0)) :
    ¬ v = st.last_correct_value := by
  intro hEq
  cases hok with
  | inl h =>
    have hv1 : v = -1 := hEq.trans h
    rw [hv1] at hv
    norm_num at hv
  | inr h =>
    obtain ⟨e, he, htol⟩ := h
    obtain ⟨j, hj, hgd⟩ := mem_getD_index e he
    rw [← hEq] at htol
    refine hnt j hj ?_
    rw [hgd]
    exact htol

lemma validate_StateOK (st : XTAL.State) (v : ℚ) (h : XTAL.StateOK st) :
    XTAL.StateOK (XTAL.validate st v).2 := by
  by_cases hfast : v = st.last_correct_value
  · rw [validate_fastpath st v hfast]
    exact h
  · cases hsl : XTAL.searchLoop XTAL.known_xtals v (XTAL.ppow2T XTAL.known_xtals)
      (XTAL.ppow2T XTAL.known_xtals) (XTAL.ppow2T XTAL.known_xtals) with
    | none =>
      rw [validate_eq_of_none st v hfast hsl]
      obtain ⟨j, hj, htol⟩ := searchLoop_none_tol XTAL.known_xtals v _ _ _ hsl
      rw [known_xtals_length] at hj
      refine Or.inr ⟨XTAL.known_xtals.getD j 0, ?_, ?_⟩
      · exact getD_mem _ _ (by rw [known_xtals_length]; omega)
      · exact htol
    | some r =>
      by_cases heq : v = XTAL.known_xtals.getD r 0
      · rw [validate_eq_of_some st v r hfast hsl, if_pos heq]
        have hr := slot_le_315 v r hsl
        refine Or.inr ⟨XTAL.known_xtals.getD r 0, ?_, ?_⟩
        · exact getD_mem _ _ (by rw [known_xtals_length]; omega)
        · show XTAL.tol v (XTAL.known_xtals.getD r 0)
          rw [← heq]
          exact tol_self v
      · rw [validate_eq_of_some st v r hfast hsl, if_neg heq]
        by_cases hlt : v < XTAL.known_xtals.getD r 0
        · rw [if_pos hlt]
          exact h
        · rw [if_neg hlt]
          exact h

/-! ### Claims -/

/-- C1: every frequency that is an entry of the compiled-in reference table
`known_xtals` is accepted: `validate` returns `true` on it from any state. -/
theorem C1_table_entries_validate (st : XTAL.State) (v : ℚ)
    (hv : v ∈ XTAL.known_xtals) : (XTAL.validate st v).1 = true := by
  by_cases hfast : v = st.last_correct_value
  · rw [validate_fastpath st v hfast]
  · have hh : XTAL.hits v = true := List.all_eq_true.mp hits_all v hv
    cases hsl : XTAL.searchLoop XTAL.known_xtals v (XTAL.ppow2T XTAL.known_xtals)
      (XTAL.ppow2T XTAL.known_xtals) (XTAL.ppow2T XTAL.known_xtals) with
    | none => rw [validate_eq_of_none st v hfast hsl]
    | some r =>
      unfold XTAL.hits at hh
      rw [hsl] at hh
      have heq : v = XTAL.known_xtals.getD r 0 := of_decide_eq_true hh
      rw [validate_eq_of_some st v r hfast hsl, if_pos heq]

/-- Witness for C1: the first table entry, from the initial state. -/
theorem C1_witness :
    (32768 : ℚ) ∈ XTAL.known_xtals ∧
      (XTAL.validate XTAL.initState 32768).1 = true :=
  ⟨by decide, C1_table_entries_validate XTAL.initState 32768 (by decide)⟩

/-- C2: a positive candidate within `2 * DBL_EPSILON` relative tolerance of no
table entry is rejected, provided the cache does not already hold it. -/
theorem C2_no_tolerance_match_rejected (st : XTAL.State) (v : ℚ) (hv : 0 < v)
    (hnt : ∀ e ∈ XTAL.known_xtals, ¬ XTAL.tol v e)
    (hc : v ≠ st.last_correct_value) : (XTAL.validate st v).1 = false := by
  have hnt' : ∀ j, j ≤ XTAL.known_xtals.length - 1 →
      ¬ XTAL.tol v (XTAL.known_xtals.getD j 0) := by
    intro j hj
    rw [known_xtals_length] at hj
    exact hnt _ (getD_mem _ _ (by rw [known_xtals_length]; omega))
  have hcorr := searchLoop_eq_searchLoopD XTAL.known_xtals v
    (fun j => decide (XTAL.known_xtals.getD j 0 < v)) hnt'
    (fun j _ => by simp) (XTAL.ppow2T XTAL.known_xtals)
    (XTAL.ppow2T XTAL.known_xtals) (XTAL.ppow2T XTAL.known_xtals)
  set r := XTAL.searchLoopD (XTAL.known_xtals.length - 1)
    (fun j => decide (XTAL.known_xtals.getD j 0 < v)) (XTAL.ppow2T XTAL.known_xtals)
    (XTAL.ppow2T XTAL.known_xtals) (XTAL.ppow2T XTAL.known_xtals) with hrdef
  have hb := slot_le_315 v r hcorr
  have hneq : ¬ v = XTAL.known_xtals.getD r 0 := by
    intro he
    refine hnt' r (by rw [known_xtals_length]; omega) ?_
    rw [← he]
    exact tol_self v
  rw [validate_eq_of_some st v r hc hcorr, if_neg hneq]
  by_cases hlt : v < XTAL.known_xtals.getD r 0
  · rw [if_pos hlt]
  · rw [if_neg hlt]

/-- Witness for C2 at candidate `100`, which is below every table entry and
within tolerance of none. -/
theorem C2_witness :
    (0 : ℚ) < 100 ∧ (100 : ℚ) ≠ XTAL.initState.last_correct_value ∧
      (XTAL.validate XTAL.initState 100).1 = false :=
  ⟨by norm_num, by decide,
    C2_no_tolerance_match_rejected XTAL.initState 100 (by norm_num) (by decide)
      (by decide)⟩

/-- C5: the search loop of `validate` is total in this model (the fuelled
recursion computes the `while` loop, whose step halves every iteration), and
the final slot it produces is always within the table bounds: it is at most
`last_index`, so the post-loop re-check `known_xtals[slot]` and the guarded
bracket accesses `known_xtals[slot - 1]` (guarded by `slot ≠ 0`) and
`known_xtals[slot + 1]` (guarded by `slot < last_index`) are all in bounds. -/
theorem C5_search_slot_in_bounds (v : ℚ) (r : Nat)
    (h : XTAL.searchLoop XTAL.known_xtals v (XTAL.ppow2T XTAL.known_xtals)
      (XTAL.ppow2T XTAL.known_xtals) (XTAL.ppow2T XTAL.known_xtals) = some r) :
    r ≤ XTAL.last_indexT XTAL.known_xtals := by
  rw [lastIndex_known]
  exact slot_le_315 v r h

/-- Witness for C5: the search on candidate `250` exits the loop at slot `0`. -/
theorem C5_witness :
    XTAL.searchLoop XTAL.known_xtals 250 (XTAL.ppow2T XTAL.known_xtals)
      (XTAL.ppow2T XTAL.known_xtals) (XTAL.ppow2T XTAL.known_xtals) = some 0 ∧
      (0 : Nat) ≤ XTAL.last_indexT XTAL.known_xtals :=
  ⟨by decide, C5_search_slot_in_bounds 250 0 (by decide)⟩

/-- C6: the reference table is strictly ascending (`table[i] < table[i+1]` for
every valid `i`), hence duplicate-free, and every entry is positive. -/
theorem C6_table_sorted_positive :
    (∀ i, i < XTAL.known_xtals.length - 1 →
      XTAL.known_xtals.getD i 0 < XTAL.known_xtals.getD (i + 1) 0) ∧
    XTAL.known_xtals.Nodup ∧
    (∀ e ∈ XTAL.known_xtals, (0 : ℚ) < e) := by
  refine ⟨?_, ?_, known_pos⟩
  · intro i hi
    rw [known_xtals_length] at hi
    exact known_adj i (by omega)
  · refine List.pairwise_iff_getElem.mpr ?_
    intro i j hi hj hij
    have h := known_strict_mono i j hij (by rw [known_xtals_length] at hj; omega)
    rw [getD_eq_getElem _ _ hi, getD_eq_getElem _ _ hj] at h
    exact ne_of_lt h

/-- Witness for C6 at the first adjacent pair and the first entry. -/
theorem C6_witness :
    XTAL.known_xtals.getD 0 0 < XTAL.known_xtals.getD 1 0 ∧ (0 : ℚ) < 32768 :=
  ⟨C6_table_sorted_positive.1 0 (by decide), C6_table_sorted_positive.2.2 32768 (by decide)⟩

/-- C3: a positive candidate strictly between the consecutive table entries at
indices `i` and `i + 1`, within tolerance of neither, is rejected with
`xtal_error_low` the entry below it and `xtal_error_high` the entry above it
(for any reachable state); and on the table `[100, 200, 300]`, validating
`250` returns `false` with low bracket `200` and high bracket `300`. -/
theorem C3_between_brackets :
    (∀ (st : XTAL.State) (v : ℚ) (i : Nat), XTAL.StateOK st → 0 < v →
      i + 1 ≤ 315 →
      XTAL.known_xtals.getD i 0 < v → v < XTAL.known_xtals.getD (i + 1) 0 →
      ¬ XTAL.tol v (XTAL.known_xtals.getD i 0) →
      ¬ XTAL.tol v (XTAL.known_xtals.getD (i + 1) 0) →
      (XTAL.validate st v).1 = false ∧
        (XTAL.validate st v).2.xtal_error_low = XTAL.known_xtals.getD i 0 ∧
        (XTAL.validate st v).2.xtal_error_high = XTAL.known_xtals.getD (i + 1) 0) ∧
    XTAL.validateT [100, 200, 300] XTAL.initState 250 =
      (false, { last_correct_value := -1, xtal_error_low := 200,
                xtal_error_high := 300 }) := by
  constructor
  · intro st v i hok hv hi h1 h2 hn1 hn2
    have hntall : ∀ j, j ≤ 315 → ¬ XTAL.tol v (XTAL.known_xtals.getD j 0) := by
      intro j hj
      rcases le_or_lt j i with hle | hgt
      · exact not_tol_of_le v _ _ hv (known_mono j i hle (by omega)) h1 hn1
      · exact not_tol_of_ge v _ _ hv (known_mono (i + 1) j hgt hj) h2 hn2
    have hnt' : ∀ j, j ≤ XTAL.known_xtals.length - 1 →
        ¬ XTAL.tol v (XTAL.known_xtals.getD j 0) := by
      intro j hj
      rw [known_xtals_length] at hj
      exact hntall j (by omega)
    have hfast := ne_last_of_not_tol_all st v hok hv hntall
    have hd : ∀ j, j ≤ XTAL.known_xtals.length - 1 →
        ((fun j => decide (j ≤ i)) j = true ↔ XTAL.known_xtals.getD j 0 < v) := by
      intro j hj
      rw [known_xtals_length] at hj
      simp only [decide_eq_true_eq]
      constructor
      · intro hji
        exact lt_of_le_of_lt (known_mono j i hji (by omega)) h1
      · intro hlt
        by_contra hni
        have hij : i + 1 ≤ j := by omega
        have hmono := known_mono (i + 1) j hij (by omega)
        linarith
    have hcorr := searchLoop_eq_searchLoopD XTAL.known_xtals v
      (fun j => decide (j ≤ i)) hnt' hd (XTAL.ppow2T XTAL.known_xtals)
      (XTAL.ppow2T XTAL.known_xtals) (XTAL.ppow2T XTAL.known_xtals)
    have hrw : XTAL.searchLoopD (XTAL.known_xtals.length - 1)
        (fun j => decide (j ≤ i)) (XTAL.ppow2T XTAL.known_xtals)
        (XTAL.ppow2T XTAL.known_xtals) (XTAL.ppow2T XTAL.known_xtals) =
        XTAL.searchLoopD 315 (fun j => decide (j ≤ i)) 256 256 256 := by
      rw [known_xtals_length, ppow2_known]
    rw [hrw] at hcorr
    rcases runD_between i (by omega) with hcase | hcase
    · rw [hcase] at hcorr
      have hne_i : ¬ v = XTAL.known_xtals.getD i 0 := by
        intro he
        rw [← he] at h1
        exact lt_irrefl v h1
      rw [validate_eq_of_some st v i hfast hcorr, if_neg hne_i,
        if_neg (not_lt.mpr h1.le)]
      refine ⟨rfl, rfl, ?_⟩
      rw [lastIndex_known, if_pos (show i < 315 by omega)]
    · rw [hcase] at hcorr
      have hne_i : ¬ v = XTAL.known_xtals.getD (i + 1) 0 := by
        intro he
        rw [← he] at h2
        exact lt_irrefl v h2
      rw [validate_eq_of_some st v (i + 1) hfast hcorr, if_neg hne_i, if_pos h2]
      refine ⟨rfl, ?_, rfl⟩
      rw [if_pos (show i + 1 ≠ 0 by omega), Nat.add_sub_cancel]
  · decide

/-- Witness for C3: `35000` lies strictly between entries `0` and `1` of the
table (`32768` and `38400`) and is within tolerance of neither. -/
theorem C3_witness :
    XTAL.known_xtals.getD 0 0 < (35000 : ℚ) ∧
      (XTAL.validate XTAL.initState 35000).1 = false ∧
      (XTAL.validate XTAL.initState 35000).2.xtal_error_low =
        XTAL.known_xtals.getD 0 0 ∧
      (XTAL.validate XTAL.initState 35000).2.xtal_error_high =
        XTAL.known_xtals.getD 1 0 :=
  ⟨by decide, C3_between_brackets.1 XTAL.initState 35000 0 initState_ok
    (by norm_num) (by omega) (by decide) (by decide) (by decide) (by decide)⟩

/-- C4: a positive candidate below the smallest table entry (outside its
tolerance) fails with `xtal_error_low` the sentinel `0` and `xtal_error_high`
the smallest entry; symmetrically, above the largest entry the call fails with
`xtal_error_high` the sentinel `0` and `xtal_error_low` the largest entry, so
exactly one real suggestion is left for the reporting step. -/
theorem C4_out_of_range_brackets (st : XTAL.State) (v : ℚ)
    (hok : XTAL.StateOK st) (hv : 0 < v) :
    (v < XTAL.known_xtals.getD 0 0 → ¬ XTAL.tol v (XTAL.known_xtals.getD 0 0) →
      (XTAL.validate st v).1 = false ∧
        (XTAL.validate st v).2.xtal_error_low = 0 ∧
        (XTAL.validate st v).2.xtal_error_high = XTAL.known_xtals.getD 0 0) ∧
    (XTAL.known_xtals.getD 315 0 < v →
      ¬ XTAL.tol v (XTAL.known_xtals.getD 315 0) →
      (XTAL.validate st v).1 = false ∧
        (XTAL.validate st v).2.xtal_error_high = 0 ∧
        (XTAL.validate st v).2.xtal_error_low = XTAL.known_xtals.getD 315 0) := by
  constructor
  · intro hlt0 hn0
    have hntall : ∀ j, j ≤ 315 → ¬ XTAL.tol v (XTAL.known_xtals.getD j 0) := by
      intro j hj
      exact not_tol_of_ge v _ _ hv (known_mono 0 j (by omega) hj) hlt0 hn0
    have hnt' : ∀ j, j ≤ XTAL.known_xtals.length - 1 →
        ¬ XTAL.tol v (XTAL.known_xtals.getD j 0) := by
      intro j hj
      rw [known_xtals_length] at hj
      exact hntall j (by omega)
    have hfast := ne_last_of_not_tol_all st v hok hv hntall
    have hd : ∀ j, j ≤ XTAL.known_xtals.length - 1 →
        ((fun _ : Nat => false) j = true ↔ XTAL.known_xtals.getD j 0 < v) := by
      intro j hj
      rw [known_xtals_length] at hj
      simp only [Bool.false_eq_true, false_iff, not_lt]
      exact le_trans hlt0.le (known_mono 0 j (by omega) (by omega))
    have hcorr := searchLoop_eq_searchLoopD XTAL.known_xtals v
      (fun _ => false) hnt' hd (XTAL.ppow2T XTAL.known_xtals)
      (XTAL.ppow2T XTAL.known_xtals) (XTAL.ppow2T XTAL.known_xtals)
    have hrw : XTAL.searchLoopD (XTAL.known_xtals.length - 1)
        (fun _ => false) (XTAL.ppow2T XTAL.known_xtals)
        (XTAL.ppow2T XTAL.known_xtals) (XTAL.ppow2T XTAL.known_xtals) =
        XTAL.searchLoopD 315 (fun _ => false) 256 256 256 := by
      rw [known_xtals_length, ppow2_known]
    rw [hrw, runD_below] at hcorr
    have hne : ¬ v = XTAL.known_xtals.getD 0 0 := by
      intro he
      rw [← he] at hlt0
      exact lt_irrefl v hlt0
    rw [validate_eq_of_some st v 0 hfast hcorr, if_neg hne, if_pos hlt0]
    refine ⟨rfl, ?_, rfl⟩
    rw [if_neg (show ¬ (0 : Nat) ≠ 0 from fun h => h rfl)]
  · intro hgt hn315
    have hntall : ∀ j, j ≤ 315 → ¬ XTAL.tol v (XTAL.known_xtals.getD j 0) := by
      intro j hj
      exact not_tol_of_le v _ _ hv (known_mono j 315 hj (le_refl 315)) hgt hn315
    have hnt' : ∀ j, j ≤ XTAL.known_xtals.length - 1 →
        ¬ XTAL.tol v (XTAL.known_xtals.getD j 0) := by
      intro j hj
      rw [known_xtals_length] at hj
      exact hntall j (by omega)
    have hfast := ne_last_of_not_tol_all st v hok hv hntall
    have hd : ∀ j, j ≤ XTAL.known_xtals.length - 1 →
        ((fun _ : Nat => true) j = true ↔ XTAL.known_xtals.getD j 0 < v) := by
      intro j hj
      rw [known_xtals_length] at hj
      simp only [true_iff]
      exact lt_of_le_of_lt (known_mono j 315 (by omega) (le_refl 315)) hgt
    have hcorr := searchLoop_eq_searchLoopD XTAL.known_xtals v
      (fun _ => true) hnt' hd (XTAL.ppow2T XTAL.known_xtals)
      (XTAL.ppow2T XTAL.known_xtals) (XTAL.ppow2T XTAL.known_xtals)
    have hrw : XTAL.searchLoopD (XTAL.known_xtals.length - 1)
        (fun _ => true) (XTAL.ppow2T XTAL.known_xtals)
        (XTAL.ppow2T XTAL.known_xtals) (XTAL.ppow2T XTAL.known_xtals) =
        XTAL.searchLoopD 315 (fun _ => true) 256 256 256 := by
      rw [known_xtals_length, ppow2_known]
    rw [hrw, runD_above] at hcorr
    have hne : ¬ v = XTAL.known_xtals.getD 315 0 := by
      intro he
      rw [← he] at hgt
      exact lt_irrefl v hgt
    rw [validate_eq_of_some st v 315 hfast hcorr, if_neg hne,
      if_neg (not_lt.mpr hgt.le)]
    refine ⟨rfl, ?_, rfl⟩
    rw [lastIndex_known, if_neg (show ¬ (315 : Nat) < 315 by omega)]

/-- Witness for C4: `250` is below the smallest entry `32768`. -/
theorem C4_witness :
    (XTAL.validate XTAL.initState 250).1 = false ∧
      (XTAL.validate XTAL.initState 250).2.xtal_error_low = 0 ∧
      (XTAL.validate XTAL.initState 250).2.xtal_error_high =
        XTAL.known_xtals.getD 0 0 :=
  (C4_out_of_range_brackets XTAL.initState 250 initState_ok (by norm_num)).1
    (by decide) (by decide)

/-- C7: a failing call computes both bracket fields from the candidate alone
(writing the `0` sentinel on a side with no neighbour): two failing calls on
the same candidate from different prior states record identical brackets, so
no bracket value from an earlier failed call survives into a later failure. -/
theorem C7_brackets_overwritten (st st₂ : XTAL.State) (v : ℚ)
    (h : (XTAL.validate st v).1 = false)
    (h₂ : (XTAL.validate st₂ v).1 = false) :
    (XTAL.validate st v).2.xtal_error_low =
        (XTAL.validate st₂ v).2.xtal_error_low ∧
      (XTAL.validate st v).2.xtal_error_high =
        (XTAL.validate st₂ v).2.xtal_error_high := by
  have hne : ¬ v = st.last_correct_value := by
    intro hEq
    rw [validate_fastpath st v hEq] at h
    simp at h
  have hne₂ : ¬ v = st₂.last_correct_value := by
    intro hEq
    rw [validate_fastpath st₂ v hEq] at h₂
    simp at h₂
  cases hsl : XTAL.searchLoop XTAL.known_xtals v (XTAL.ppow2T XTAL.known_xtals)
      (XTAL.ppow2T XTAL.known_xtals) (XTAL.ppow2T XTAL.known_xtals) with
  | none =>
    rw [validate_eq_of_none st v hne hsl] at h
    simp at h
  | some r =>
    rw [validate_eq_of_some st v r hne hsl] at h
    rw [validate_eq_of_some st v r hne hsl, validate_eq_of_some st₂ v r hne₂ hsl]
    by_cases heq : v = XTAL.known_xtals.getD r 0
    · rw [if_pos heq] at h
      simp at h
    · simp only [if_neg heq] at h ⊢
      by_cases hlt : v < XTAL.known_xtals.getD r 0
      · simp only [if_pos hlt]
        exact ⟨trivial, trivial⟩
      · simp only [if_neg hlt]
        exact ⟨trivial, trivial⟩

/-- Witness for C7: `250` fails from the initial state and from a state with
stale values; the recorded brackets agree. -/
theorem C7_witness :
    (XTAL.validate XTAL.initState 250).1 = false ∧
      (XTAL.validate { last_correct_value := 5, xtal_error_low := 1, xtal_error_high := 2 } 250).1 = false ∧
      ((XTAL.validate XTAL.initState 250).2.xtal_error_low =
          (XTAL.validate { last_correct_value := 5, xtal_error_low := 1, xtal_error_high := 2 } 250).2.xtal_error_low ∧
        (XTAL.validate XTAL.initState 250).2.xtal_error_high =
          (XTAL.validate { last_correct_value := 5, xtal_error_low := 1, xtal_error_high := 2 } 250).2.xtal_error_high) :=
  ⟨by decide, by decide,
    C7_brackets_overwritten XTAL.initState
      { last_correct_value := 5, xtal_error_low := 1, xtal_error_high := 2 }
      250 (by decide) (by decide)⟩

/-- C8: a successful validation caches the candidate in `last_correct_value`,
and an immediate re-validation of the same value succeeds again via the cache
fast path, leaving the state unchanged. -/
theorem C8_success_caches_and_idempotent (st : XTAL.State) (v : ℚ)
    (h : (XTAL.validate st v).1 = true) :
    (XTAL.validate st v).2.last_correct_value = v ∧
      XTAL.validate (XTAL.validate st v).2 v = (true, (XTAL.validate st v).2) := by
  have hlast : (XTAL.validate st v).2.last_correct_value = v := by
    by_cases hfast : v = st.last_correct_value
    · rw [validate_fastpath st v hfast]
      exact hfast.symm
    · cases hsl : XTAL.searchLoop XTAL.known_xtals v (XTAL.ppow2T XTAL.known_xtals)
        (XTAL.ppow2T XTAL.known_xtals) (XTAL.ppow2T XTAL.known_xtals) with
      | none => rw [validate_eq_of_none st v hfast hsl]
      | some r =>
        rw [validate_eq_of_some st v r hfast hsl] at h ⊢
        by_cases heq : v = XTAL.known_xtals.getD r 0
        · rw [if_pos heq]
        · rw [if_neg heq] at h ⊢
          by_cases hlt : v < XTAL.known_xtals.getD r 0
          · rw [if_pos hlt] at h
            simp at h
          · rw [if_neg hlt] at h
            simp at h
  exact ⟨hlast, validate_fastpath _ v hlast.symm⟩

/-- Witness for C8 at the first table entry from the initial state. -/
theorem C8_witness :
    (XTAL.validate XTAL.initState 32768).1 = true ∧
      (XTAL.validate XTAL.initState 32768).2.last_correct_value = 32768 ∧
      XTAL.validate (XTAL.validate XTAL.initState 32768).2 32768 =
        (true, (XTAL.validate XTAL.initState 32768).2) :=
  ⟨by decide, C8_success_caches_and_idempotent XTAL.initState 32768 (by decide)⟩

/-- C9: the fresh state carries the sentinel `-1` in `last_correct_value`, so
validating `-1` returns `true` through the cache fast path with the state
unchanged (no table consultation can accept a non-entry), although `-1` is not
a table entry and not positive: the positivity precondition is not checked. -/
theorem C9_sentinel_cache_accepts_minus_one :
    XTAL.initState.last_correct_value = -1 ∧
      XTAL.validate XTAL.initState (-1) = (true, XTAL.initState) ∧
      (-1 : ℚ) ∉ XTAL.known_xtals ∧ ¬ (0 : ℚ) < -1 :=
  ⟨rfl, validate_fastpath _ _ rfl, by decide, by norm_num⟩

/-- C10: frame property — a call returning `true` leaves both bracket fields
unchanged, and a call returning `false` leaves `last_correct_value`
unchanged. -/
theorem C10_frame (st : XTAL.State) (v : ℚ) :
    ((XTAL.validate st v).1 = true →
      (XTAL.validate st v).2.xtal_error_low = st.xtal_error_low ∧
        (XTAL.validate st v).2.xtal_error_high = st.xtal_error_high) ∧
    ((XTAL.validate st v).1 = false →
      (XTAL.validate st v).2.last_correct_value = st.last_correct_value) := by
  by_cases hfast : v = st.last_correct_value
  · rw [validate_fastpath st v hfast]
    exact ⟨fun _ => ⟨rfl, rfl⟩, fun hf => by simp at hf⟩
  · cases hsl : XTAL.searchLoop XTAL.known_xtals v (XTAL.ppow2T XTAL.known_xtals)
      (XTAL.ppow2T XTAL.known_xtals) (XTAL.ppow2T XTAL.known_xtals) with
    | none =>
      rw [validate_eq_of_none st v hfast hsl]
      exact ⟨fun _ => ⟨rfl, rfl⟩, fun hf => by simp at hf⟩
    | some r =>
      rw [validate_eq_of_some st v r hfast hsl]
      by_cases heq : v = XTAL.known_xtals.getD r 0
      · rw [if_pos heq]
        exact ⟨fun _ => ⟨rfl, rfl⟩, fun hf => by simp at hf⟩
      · rw [if_neg heq]
        by_cases hlt : v < XTAL.known_xtals.getD r 0
        · rw [if_pos hlt]
          exact ⟨fun ht => by simp at ht, fun _ => rfl⟩
        · rw [if_neg hlt]
          exact ⟨fun ht => by simp at ht, fun _ => rfl⟩

/-- Witness for C10: a success (`32768`) preserves the brackets and a failure
(`250`) preserves the cache. -/
theorem C10_witness :
    ((XTAL.validate XTAL.initState 32768).2.xtal_error_low =
        XTAL.initState.xtal_error_low ∧
      (XTAL.validate XTAL.initState 32768).2.xtal_error_high =
        XTAL.initState.xtal_error_high) ∧
      (XTAL.validate XTAL.initState 250).2.last_correct_value =
        XTAL.initState.last_correct_value :=
  ⟨(C10_frame XTAL.initState 32768).1 (by decide),
    (C10_frame XTAL.initState 250).2 (by decide)⟩
